import Mathlib

/-!
A verification development for the scoring module of the survey
application (`src/lib/scoring.ts`): the choice-data parser, the score
normalizer (`computeScores`) and the range classifier (`pickRange`).

JavaScript runtime values that can reach the scoring module are embedded
as the inductive type `JSValue`; JavaScript numbers are idealised as
rationals.  Each TypeScript function of the module is translated to a
total Lean function of the same name.
-/

namespace Scoring

/-- A JavaScript runtime value, as far as the scoring module can observe
it: `undefined`, `null`, booleans, numbers (idealised as `ℚ`), strings,
arrays and plain objects. -/
inductive JSValue where
  | undefined : JSValue
  | null : JSValue
  | bool (b : Bool) : JSValue
  | num (q : ℚ) : JSValue
  | str (s : String) : JSValue
  | arr (xs : List JSValue) : JSValue
  | obj (fields : List (String × JSValue)) : JSValue

/-- Decimal digits of a natural number, most significant first. -/
def natDigits (fuel n : ℕ) : List Char :=
  match fuel with
  | 0 => []
  | fuel + 1 =>
    if n < 10 then [Char.ofNat (48 + n)]
    else natDigits fuel (n / 10) ++ [Char.ofNat (48 + n % 10)]

/-- Render a natural number in decimal. -/
def natToDec (n : ℕ) : String := String.mk (natDigits (n + 1) n)

/-- Render an integer in decimal, with a leading minus sign when negative. -/
def intToDec (i : ℤ) : String :=
  if i < 0 then "-" ++ natToDec i.natAbs else natToDec i.natAbs

/-- Left-pad the decimal rendering of `n` with zeros to `width` digits. -/
def natToDecPad (width : ℕ) (n : ℕ) : String :=
  let ds := natDigits (n + 1) n
  String.mk (List.replicate (width - ds.length) '0' ++ ds)

/-- Smallest `k ≤ fuel` with `d ∣ 10 ^ k`, if any: the length of the
terminating decimal expansion of a fraction with reduced denominator `d`. -/
def decExpLen (d : ℕ) : ℕ → Option ℕ
  | 0 => if d ∣ 1 then some 0 else none
  | fuel + 1 =>
    match decExpLen d fuel with
    | some k => some k
    | none => if d ∣ 10 ^ (fuel + 1) then some (fuel + 1) else none

/-- Rendering of a JavaScript number (model of `String(n)`): integers in
plain decimal, terminating fractions with a decimal point; a
non-terminating fraction (unrepresentable exactly in decimal) falls back
to a `num/den` rendering. -/
def renderNum (q : ℚ) : String :=
  if q.den = 1 then intToDec q.num
  else
    match decExpLen q.den 64 with
    | some k =>
      let m := q.num.natAbs * 10 ^ k / q.den
      (if q.num < 0 then "-" else "")
        ++ natToDec (m / 10 ^ k) ++ "." ++ natToDecPad k (m % 10 ^ k)
    | none => intToDec q.num ++ "/" ++ natToDec q.den

mutual

/-- Model of JavaScript `String(v)` string coercion. -/
def jsToString : JSValue → String
  | .undefined => "undefined"
  | .null => "null"
  | .bool b => if b then "true" else "false"
  | .num q => renderNum q
  | .str s => s
  | .arr xs => jsToStringList xs
  | .obj _ => "[object Object]"

/-- Model of `Array.prototype.toString`: the elements' string coercions joined
with commas. -/
def jsToStringList : List JSValue → String
  | [] => ""
  | [x] => jsToString x
  | x :: xs => jsToString x ++ "," ++ jsToStringList xs

end

/-- JSON/JS whitespace skipping. -/
def skipWs (cs : List Char) : List Char :=
  cs.dropWhile fun c => c = ' ' ∨ c = '\t' ∨ c = '\n' ∨ c = '\r'

/-- JavaScript whitespace (the ASCII fragment relevant here). -/
def isJsWs (c : Char) : Bool :=
  c = ' ' ∨ c = '\t' ∨ c = '\n' ∨ c = '\r' ∨ c.toNat = 11 ∨ c.toNat = 12

/-- Model of `String.prototype.trim`. -/
def jsTrim (s : String) : String :=
  String.mk ((s.toList.dropWhile isJsWs).reverse.dropWhile isJsWs).reverse

/-- Whether the first character of `s` is `c` (`s.startsWith(c)` for a
one-character prefix). -/
def headIs (s : String) (c : Char) : Bool := s.toList.head? = some c

/-- Whether the last character of `s` is `c` (`s.endsWith(c)` for a
one-character suffix). -/
def lastIs (s : String) (c : Char) : Bool := s.toList.getLast? = some c

/-- Model of `s.slice(1)`. -/
def strDropFirst (s : String) : String := String.mk (s.toList.drop 1)

/-- Drop the final character: together with `strDropFirst` this models
`s.slice(1, -1)`. -/
def strDropLast (s : String) : String := String.mk (s.toList.dropLast)

/-- Emptiness of a string, on its character list. -/
def strIsEmpty (s : String) : Bool := s.toList.isEmpty

/-- Model of `String.prototype.split` with a one-character separator. -/
def splitChars (sep : Char) : List Char → List (List Char)
  | [] => [[]]
  | c :: rest =>
    match splitChars sep rest with
    | g :: gs => if c = sep then [] :: g :: gs else (c :: g) :: gs
    | [] => if c = sep then [[], []] else [[c]]

/-- ASCII lower-casing (`String.prototype.toLowerCase` on the ASCII
range). -/
def asciiLower (s : String) : String :=
  String.mk (s.toList.map fun c =>
    if 'A' ≤ c ∧ c ≤ 'Z' then Char.ofNat (c.toNat + 32) else c)

/-- Value of a decimal digit list, most significant first. -/
def digitsVal (cs : List Char) : ℕ :=
  cs.foldl (fun acc c => acc * 10 + (c.toNat - 48)) 0

/-- Parse the body of a JSON string literal (after the opening quote),
handling the JSON escape sequences; returns the decoded string and the
rest of the input after the closing quote. -/
def parseJString (acc : List Char) : List Char → Option (String × List Char)
  | [] => none
  | '"' :: rest => some (String.mk acc.reverse, rest)
  | '\\' :: rest =>
    match rest with
    | '"' :: r => parseJString ('"' :: acc) r
    | '\\' :: r => parseJString ('\\' :: acc) r
    | '/' :: r => parseJString ('/' :: acc) r
    | 'b' :: r => parseJString (Char.ofNat 8 :: acc) r
    | 'f' :: r => parseJString (Char.ofNat 12 :: acc) r
    | 'n' :: r => parseJString ('\n' :: acc) r
    | 'r' :: r => parseJString (Char.ofNat 13 :: acc) r
    | 't' :: r => parseJString ('\t' :: acc) r
    | 'u' :: h1 :: h2 :: h3 :: h4 :: r =>
      let hv := fun (c : Char) =>
        if '0' ≤ c ∧ c ≤ '9' then some (c.toNat - 48)
        else if 'a' ≤ c ∧ c ≤ 'f' then some (c.toNat - 87)
        else if 'A' ≤ c ∧ c ≤ 'F' then some (c.toNat - 55)
        else none
      match hv h1, hv h2, hv h3, hv h4 with
      | some a, some b, some c, some d =>
        parseJString (Char.ofNat (((a * 16 + b) * 16 + c) * 16 + d) :: acc) r
      | _, _, _, _ => none
    | _ => none
  | c :: rest => if c.toNat < 32 then none else parseJString (c :: acc) rest

/-- Parse a JSON number literal at the head of the input (strict JSON
grammar: optional minus, no leading zeros, optional fraction and
exponent); returns its rational value and the rest of the input. -/
def parseJNumber (cs : List Char) : Option (ℚ × List Char) :=
  let (neg, cs1) : Bool × List Char :=
    match cs with
    | '-' :: r => (true, r)
    | _ => (false, cs)
  let intPart : Option (ℕ × List Char) :=
    match cs1 with
    | '0' :: r =>
      match r with
      | c :: _ => if c.isDigit then none else some (0, r)
      | [] => some (0, [])
    | c :: _ =>
      if c.isDigit then
        let ds := cs1.takeWhile Char.isDigit
        some (digitsVal ds, cs1.dropWhile Char.isDigit)
      else none
    | [] => none
  match intPart with
  | none => none
  | some (ip, cs2) =>
    let fracPart : Option (ℚ × List Char) :=
      match cs2 with
      | '.' :: r =>
        let ds := r.takeWhile Char.isDigit
        if ds.isEmpty then none
        else some ((digitsVal ds : ℚ) / 10 ^ ds.length, r.dropWhile Char.isDigit)
      | _ => some (0, cs2)
    match fracPart with
    | none => none
    | some (fp, cs3) =>
      let expPart : Option (ℤ × List Char) :=
        match cs3 with
        | 'e' :: r | 'E' :: r =>
          let (eneg, r1) : Bool × List Char :=
            match r with
            | '-' :: r' => (true, r')
            | '+' :: r' => (false, r')
            | _ => (false, r)
          let ds := r1.takeWhile Char.isDigit
          if ds.isEmpty then none
          else some (if eneg then -(digitsVal ds : ℤ) else (digitsVal ds : ℤ),
                     r1.dropWhile Char.isDigit)
        | _ => some (0, cs3)
      match expPart with
      | none => none
      | some (ex, cs4) =>
        let mag : ℚ := ((ip : ℚ) + fp) * (10 : ℚ) ^ ex
        some (if neg then -mag else mag, cs4)

/-- A stack frame of the JSON parser: an in-progress array or an
in-progress object waiting for the value of key `key`. -/
inductive JFrame where
  | arr (acc : List JSValue) : JFrame
  | obj (acc : List (String × JSValue)) (key : String) : JFrame

/-- Parser mode: about to parse a value, or holding a just-parsed value
to be delivered to the innermost frame. -/
inductive JMode where
  | parseVal : JMode
  | haveVal (v : JSValue) : JMode

/-- Fuel-driven JSON parsing machine (model of `JSON.parse`): strict
JSON grammar, rejecting the input by returning `none` where `JSON.parse`
would throw. -/
def jsonRun : ℕ → JMode → List JFrame → List Char → Option JSValue
  | 0, _, _, _ => none
  | fuel + 1, .parseVal, st, cs =>
    match skipWs cs with
    | 'n' :: 'u' :: 'l' :: 'l' :: r => jsonRun fuel (.haveVal .null) st r
    | 't' :: 'r' :: 'u' :: 'e' :: r => jsonRun fuel (.haveVal (.bool true)) st r
    | 'f' :: 'a' :: 'l' :: 's' :: 'e' :: r => jsonRun fuel (.haveVal (.bool false)) st r
    | '"' :: r =>
      match parseJString [] r with
      | some (s, r') => jsonRun fuel (.haveVal (.str s)) st r'
      | none => none
    | '[' :: r =>
      (match skipWs r with
       | ']' :: r' => jsonRun fuel (.haveVal (.arr [])) st r'
       | r' => jsonRun fuel .parseVal (.arr [] :: st) r')
    | '\x7b' :: r =>
      (match skipWs r with
       | '\x7d' :: r' => jsonRun fuel (.haveVal (.obj [])) st r'
       | '"' :: r' =>
         match parseJString [] r' with
         | some (k, r2) =>
           (match skipWs r2 with
            | ':' :: r3 => jsonRun fuel .parseVal (.obj [] k :: st) r3
            | _ => none)
         | none => none
       | _ => none)
    | cs' =>
      match parseJNumber cs' with
      | some (q, r) => jsonRun fuel (.haveVal (.num q)) st r
      | none => none
  | fuel + 1, .haveVal v, st, cs =>
    match st with
    | [] => if (skipWs cs).isEmpty then some v else none
    | .arr acc :: st' =>
      (match skipWs cs with
       | ',' :: r => jsonRun fuel .parseVal (.arr (acc ++ [v]) :: st') r
       | ']' :: r => jsonRun fuel (.haveVal (.arr (acc ++ [v]))) st' r
       | _ => none)
    | .obj acc k :: st' =>
      (match skipWs cs with
       | ',' :: r =>
         (match skipWs r with
          | '"' :: r1 =>
            match parseJString [] r1 with
            | some (k2, r2) =>
              (match skipWs r2 with
               | ':' :: r3 => jsonRun fuel .parseVal (.obj (acc ++ [(k, v)]) k2 :: st') r3
               | _ => none)
            | none => none
          | _ => none)
       | '\x7d' :: r => jsonRun fuel (.haveVal (.obj (acc ++ [(k, v)]))) st' r
       | _ => none)

/-- Model of `JSON.parse`: `none` where the JavaScript function throws. -/
def jsonParse (s : String) : Option JSValue :=
  jsonRun (2 * s.toList.length + 8) .parseVal [] s.toList

/-- Length bound used for termination of the token scanner. -/
theorem dropWhile_length_le (p : Char → Bool) (l : List Char) :
    (l.dropWhile p).length ≤ l.length := by
  induction l with
  | nil => simp [List.dropWhile]
  | cons c cs ih =>
    simp only [List.dropWhile]
    cases p c
    · simp
    · simp
      omega

/-- One token of the Postgres-array splitting regex
`/"([^"]*)"|[^,]+/g`: at the current position, a quoted run (when a
closing quote exists) or else a maximal run of non-comma characters;
commas that match neither alternative are skipped. -/
def pgTokens : List Char → List String
  | [] => []
  | '"' :: rest =>
    if rest.any (· = '"') then
      let body := rest.takeWhile (· ≠ '"')
      String.mk ('"' :: body ++ ['"']) :: pgTokens ((rest.dropWhile (· ≠ '"')).drop 1)
    else
      let body := rest.takeWhile (· ≠ ',')
      String.mk ('"' :: body) :: pgTokens (rest.dropWhile (· ≠ ','))
  | ',' :: rest => pgTokens rest
  | c :: rest =>
    let body := rest.takeWhile (· ≠ ',')
    String.mk (c :: body) :: pgTokens (rest.dropWhile (· ≠ ','))
termination_by cs => cs.length
decreasing_by
  all_goals simp_wf
  all_goals
    first
    | (have h1 := dropWhile_length_le (fun x => !decide (x = '"')) rest
       omega)
    | (have h1 := dropWhile_length_le (fun x => !decide (x = ',')) rest
       omega)

/-- Model of `p.replace(/^"|"$/g, '')`: strip one leading and one
trailing double-quote character. -/
def stripOuterQuotes (s : String) : String :=
  let s1 := if headIs s '"' then strDropFirst s else s
  if lastIs s1 '"' then strDropLast s1 else s1

/-- Translation of `parseArrayish` from `src/lib/scoring.ts`: tolerant decoding of a
choice-labels field into a list of strings. -/
def parseArrayish (input : JSValue) : List String :=
  match input with
  | .undefined => []
  | .null => []
  | .arr xs => xs.map jsToString
  | .str s0 =>
    let s := jsTrim s0
    let pgOrScalar : List String :=
      if headIs s '\x7b' ∧ lastIs s '\x7d' then
        let inner := strDropLast (strDropFirst s)
        if strIsEmpty inner then []
        else (pgTokens inner.toList).map stripOuterQuotes
      else [s]
    if (headIs s '[' ∧ lastIs s ']') ∨ (headIs s '"' ∧ lastIs s '"') then
      match jsonParse s with
      | some (.arr xs) => xs.map jsToString
      | some _ => []
      | none => pgOrScalar
    else pgOrScalar
  | other => [jsToString other]

/-- Model of the `Number(s)` coercion on a string: `none` stands for
`NaN`. -/
def jsNumberOfString (s : String) : Option ℚ :=
  let cs := (jsTrim s).toList
  if cs.isEmpty then some 0
  else
    let (neg, cs1) : Bool × List Char :=
      match cs with
      | '-' :: r => (true, r)
      | '+' :: r => (false, r)
      | _ => (false, cs)
    match cs1 with
    | '0' :: 'x' :: r | '0' :: 'X' :: r =>
      if neg then none
      else if r ≠ [] ∧ r.all (fun c => c.isDigit ∨ ('a' ≤ c ∧ c ≤ 'f') ∨ ('A' ≤ c ∧ c ≤ 'F')) then
        some (r.foldl (fun acc c =>
          acc * 16 + (if c.isDigit then c.toNat - 48
                      else if 'a' ≤ c then c.toNat - 87 else c.toNat - 55)) (0 : ℚ))
      else none
    | _ =>
      let ip := cs1.takeWhile Char.isDigit
      let cs2 := cs1.dropWhile Char.isDigit
      let fracPart : Option (ℚ × List Char) :=
        match cs2 with
        | '.' :: r =>
          let ds := r.takeWhile Char.isDigit
          if ip.isEmpty ∧ ds.isEmpty then none
          else some ((digitsVal ds : ℚ) / 10 ^ ds.length, r.dropWhile Char.isDigit)
        | _ => if ip.isEmpty then none else some (0, cs2)
      match fracPart with
      | none => none
      | some (fp, cs3) =>
        let expPart : Option (ℤ × List Char) :=
          match cs3 with
          | 'e' :: r | 'E' :: r =>
            let (eneg, r1) : Bool × List Char :=
              match r with
              | '-' :: r' => (true, r')
              | '+' :: r' => (false, r')
              | _ => (false, r)
            let ds := r1.takeWhile Char.isDigit
            if ds.isEmpty then none
            else some (if eneg then -(digitsVal ds : ℤ) else (digitsVal ds : ℤ),
                       r1.dropWhile Char.isDigit)
          | _ => some (0, cs3)
        match expPart with
        | none => none
        | some (ex, cs4) =>
          if cs4.isEmpty then
            let mag : ℚ := ((digitsVal ip : ℚ) + fp) * (10 : ℚ) ^ ex
            some (if neg then -mag else mag)
          else none

/-- Model of the `Number(v)` coercion on any value: `none` stands for
`NaN`. -/
def jsNumberOfValue : JSValue → Option ℚ
  | .undefined => none
  | .null => some 0
  | .bool b => some (if b then 1 else 0)
  | .num q => some q
  | .str s => jsNumberOfString s
  | .arr xs => jsNumberOfString (jsToString (.arr xs))
  | .obj _ => none

/-- Translation of `parseNumberArrayish` from `src/lib/scoring.ts`: the string tokens
of `parseArrayish`, coerced with `Number` and with `NaN` results
filtered out. -/
def parseNumberArrayish (input : JSValue) : List ℚ :=
  (parseArrayish input).filterMap jsNumberOfString

/-- Translation of `asArrayOfStrings` from `src/lib/scoring.ts`: the selected labels of
a checkbox answer value. -/
def asArrayOfStrings (value : JSValue) : List String :=
  match value with
  | .arr xs => xs.map jsToString
  | .str s =>
    (((splitChars ',' s.toList).map fun cs => jsTrim (String.mk cs)).filter (· ≠ ""))
  | .undefined => []
  | .null => []
  | other => [jsToString other]

/-- Translation of `clamp01` from `src/lib/scoring.ts`. -/
def clamp01 (v : ℚ) : ℚ :=
  if v < 0 then 0 else if v > 1 then 1 else v

/-- The `Question` type of `src/lib/scoring.ts`; optional fields are
`Option` (with `none` for `undefined`/`null`/non-number where the code
only tests those with `typeof`/`=== false`). -/
structure Question where
  id : String
  prompt : Option String := none
  type : Option String := none
  scorable : Option Bool := none
  weight : Option ℚ := none
  choices : JSValue := .undefined
  choice_scores : JSValue := .undefined
  max_score : Option ℚ := none

/-- The `Category` type of `src/lib/scoring.ts`. -/
structure Category where
  id : String
  title : String
  weight : Option ℚ := none
  questions : List Question

/-- The `Answer` type of `src/lib/scoring.ts`. -/
structure Answer where
  question_id : String
  score : Option ℚ := none
  value : JSValue := .undefined

/-- The `ComputeOpts` type of `src/lib/scoring.ts`: `none` models an
omitted (`undefined`) field. -/
structure ComputeOpts where
  treatMissingAsZero : Option Bool := none
  useQuestionWeights : Option Bool := none
  useCategoryWeights : Option Bool := none

/-- JavaScript truthiness of an optional boolean field: `undefined` is
falsy. -/
def truthy (o : Option Bool) : Bool := o.getD false

/-- The default value of the `opts` parameter of `computeScores`. -/
def defaultOpts : ComputeOpts :=
  { treatMissingAsZero := some true
    useQuestionWeights := some false
    useCategoryWeights := some false }

/-- The `ScoreRange` element type taken by `pickRange`. -/
structure ScoreRange where
  min_score : ℚ
  max_score : ℚ
  description : String
  color : Option String := none

/-- Translation of `pickRange` from `src/lib/scoring.ts`: first range containing the
rounded percentage, else `none`. -/
def pickRange (percent : ℚ) (ranges : List ScoreRange) : Option ScoreRange :=
  let p : ℚ := (round percent : ℤ)
  ranges.find? fun r => decide (r.min_score ≤ p ∧ p ≤ r.max_score)

/-- Model of `Array.isArray(v) ? v[0] : v`: the single value picked out of a
rating or single-choice answer. -/
def pickedOf (v : JSValue) : JSValue :=
  match v with
  | .arr xs => xs.getD 0 .undefined
  | v => v

/-- Score contributed by one selected checkbox label:
`choiceScores` at the first exact-match index of the label, 0 when the
label is not found or the index is past the end of the scores. -/
def checkboxLabelScore (labels : List String) (scores : List ℚ) (label : String) : ℚ :=
  match labels.findIdx? (· = label) with
  | some idx => scores.getD idx 0
  | none => 0

/-- The `checkbox` branch of `resolveRawScore`: 0 when the selection,
labels or scores are empty, else the sum of the selected labels'
position-based scores. -/
def checkboxScore (labels : List String) (scores : List ℚ) (value : JSValue) : ℚ :=
  let selected := asArrayOfStrings value
  if selected.isEmpty ∨ labels.isEmpty ∨ scores.isEmpty then 0
  else selected.foldl (fun sum label => sum + checkboxLabelScore labels scores label) 0

/-- The `rating` branch of `resolveRawScore`: the numeric value of the
answer itself, 0 when not a (finite) number. -/
def ratingScore (value : JSValue) : ℚ :=
  match jsNumberOfValue (pickedOf value) with
  | some n => n
  | none => 0

/-- The default (radio/select single-choice) branch of
`resolveRawScore`: trim the picked value, look it up exactly in the
labels, retry with trimmed labels, and return the positional score (0
when nothing matches or the index is past the scores). -/
def singleChoiceScore (labels : List String) (scores : List ℚ) (picked : JSValue) : ℚ :=
  match picked with
  | .undefined => 0
  | .null => 0
  | picked =>
    let pickedTrimmed := jsTrim (jsToString picked)
    let idx :=
      match labels.findIdx? (· = pickedTrimmed) with
      | some i => some i
      | none => labels.findIdx? (fun label => jsTrim label = pickedTrimmed)
    match idx with
    | none => 0
    | some i => scores.getD i 0

/-- Translation of `resolveRawScore` from `src/lib/scoring.ts`: raw numeric score of
one question given its (possibly absent) answer. -/
def resolveRawScore (q : Question) (a : Option Answer) : ℚ :=
  match a with
  | none => 0
  | some a =>
    let labels := parseArrayish q.choices
    let scores := parseNumberArrayish q.choice_scores
    let type := asciiLower (q.type.getD "")
    if type = "checkbox" then checkboxScore labels scores a.value
    else if type = "rating" then ratingScore a.value
    else singleChoiceScore labels scores (pickedOf a.value)

/-- Translation of `questionMinMax` from `src/lib/scoring.ts`: normalization bounds
`(min, max)` of a question. -/
def questionMinMax (q : Question) : ℚ × ℚ :=
  match parseNumberArrayish q.choice_scores with
  | s :: rest => (rest.foldl min s, rest.foldl max s)
  | [] => (0, max 1 (q.max_score.getD 1))

/-- The normalized value `qNorm` computed for one question inside the
loop of `computeScores`. -/
def questionQNorm (q : Question) (a : Option Answer) : ℚ :=
  let raw := resolveRawScore q a
  let mm := questionMinMax q
  clamp01 (if mm.2 = mm.1 then (if raw > mm.1 then 1 else 0) else (raw - mm.1) / (mm.2 - mm.1))

/-- The effective per-question weight `qW` of `computeScores`. -/
def questionWeight (opts : ComputeOpts) (q : Question) : ℚ :=
  match q.weight with
  | some w => if truthy opts.useQuestionWeights ∧ 0 < w then w else 1
  | none => 1

/-- The effective per-category weight `catW` of `computeScores`. -/
def categoryWeightOf (opts : ComputeOpts) (cat : Category) : ℚ :=
  match cat.weight with
  | some w => if truthy opts.useCategoryWeights ∧ 0 < w then w else 1
  | none => 1

/-- One iteration of the question loop of `computeScores`: `none` when
the question is skipped (non-scorable, or unanswered while
`treatMissingAsZero` is falsy), otherwise the pair
`(qNorm * qW, qW)` added to the category accumulators. -/
def questionContribution (opts : ComputeOpts) (q : Question) (a : Option Answer) :
    Option (ℚ × ℚ) :=
  if q.scorable = some false then none
  else if a.isNone ∧ ¬ truthy opts.treatMissingAsZero then none
  else
    let qW := questionWeight opts q
    some (questionQNorm q a * qW, qW)

/-- The answer map of `computeScores`: repeated `Map.set` means the last
answer for a question id wins. -/
def lookupAnswer (answers : List Answer) (qid : String) : Option Answer :=
  answers.foldl (fun acc a => if a.question_id = qid then some a else acc) none

/-- The category accumulators `(catAccum, catWeight)` of
`computeScores`. -/
def categoryRaw (opts : ComputeOpts) (ansMap : String → Option Answer)
    (cat : Category) : ℚ × ℚ :=
  cat.questions.foldl
    (fun acc q =>
      match questionContribution opts q (ansMap q.id) with
      | none => acc
      | some (n, w) => (acc.1 + n, acc.2 + w))
    (0, 0)

/-- The unrounded category percentage `catPct` of `computeScores`. -/
def categoryPercent (opts : ComputeOpts) (ansMap : String → Option Answer)
    (cat : Category) : ℚ :=
  let acc := categoryRaw opts ansMap cat
  if 0 < acc.2 then acc.1 / acc.2 * 100 else 0

/-- Model of `Number(x.toFixed(2))`: round to two decimal places (ties away from
zero for the nonnegative values that occur here). -/
def round2 (x : ℚ) : ℚ := (round (x * 100) : ℤ) / 100

/-- Assignment `rec[key] = v` on a JavaScript object modelled as an
association list: overwrite in place when the key exists, else append. -/
def upsert (m : List (String × ℚ)) (k : String) (v : ℚ) : List (String × ℚ) :=
  if m.any (fun p => p.1 = k) then m.map fun p => if p.1 = k then (k, v) else p
  else m ++ [(k, v)]

/-- The result record of `computeScores`. -/
structure ScoreResult where
  categoryPercents : List (String × ℚ)
  totalPercent : ℚ

/-- The category fold step of `computeScores`, over the state
`(categoryPercents, totalAccum, totalWeight)`. -/
def computeStep (opts : ComputeOpts) (ansMap : String → Option Answer)
    (st : List (String × ℚ) × ℚ × ℚ) (cat : Category) : List (String × ℚ) × ℚ × ℚ :=
  let catPct := categoryPercent opts ansMap cat
  let catW := categoryWeightOf opts cat
  (upsert st.1 cat.title (round2 catPct), st.2.1 + catPct * catW, st.2.2 + catW)

/-- Translation of `computeScores` from `src/lib/scoring.ts`. -/
def computeScores (categories : List Category) (answers : List Answer)
    (opts : ComputeOpts) : ScoreResult :=
  let ansMap := lookupAnswer answers
  let st := categories.foldl (computeStep opts ansMap) ([], 0, 0)
  { categoryPercents := st.1
    totalPercent := if 0 < st.2.2 then round2 (st.2.1 / st.2.2) else 0 }

/-- A call of `computeScores` that omits the `opts` argument entirely,
receiving the default parameter value. -/
def computeScoresDefault (categories : List Category) (answers : List Answer) :
    ScoreResult :=
  computeScores categories answers defaultOpts

/-! Concrete fixtures used by counterexamples and witnesses. -/

/-- A scorable yes/no single-choice question worth 0 or 1. -/
def exYesNoQ : Question :=
  { id := "qb", type := some "radio"
    choices := .arr [.str "No", .str "Yes"]
    choice_scores := .arr [.num 0, .num 1] }

/-- A question of type `text`, with no choice data. -/
def exTextQ : Question := { id := "qt", type := some "text" }

/-- An answer picking `Yes` on `exYesNoQ`. -/
def exYesAns : List Answer := [{ question_id := "qb", value := .str "Yes" }]

/-- A single-choice question whose scores run from −1 to 1, so that a
missing answer treated as raw 0 normalizes to 1/2. -/
def exMidQ : Question :=
  { id := "qm", type := some "radio"
    choices := .arr [.str "No", .str "Yes"]
    choice_scores := .arr [.num (-1), .num 1] }

/-- A category holding only `exMidQ`. -/
def exMidCat : Category := { id := "c", title := "M", questions := [exMidQ] }

/-- A checkbox question with labels `A`, `B`, `C` worth 1, 2, 3. -/
def exCbQ : Question :=
  { id := "cb", type := some "checkbox"
    choices := .arr [.str "A", .str "B", .str "C"]
    choice_scores := .arr [.num 1, .num 2, .num 3] }

/-- A checkbox question whose single label carries a trailing space. -/
def exCbSpaceQ : Question :=
  { id := "cb2", type := some "checkbox"
    choices := .arr [.str "A "], choice_scores := .arr [.num 5] }

/-- A single-choice question with the duplicate-after-trim labels
`"A"` and `" A "`, worth 1 and 2. -/
def exDupQ : Question :=
  { id := "c4", type := some "radio"
    choices := .arr [.str "A", .str " A "], choice_scores := .arr [.num 1, .num 2] }

/-- A single-choice question whose only possible score is 2 (degenerate
normalization range). -/
def exDegQ : Question :=
  { id := "d", type := some "radio"
    choices := .arr [.str "X"], choice_scores := .arr [.num 2, .num 2] }

/-- A category of one non-scorable question. -/
def exNonScorableCat : Category :=
  { id := "ns", title := "NS"
    questions := [{ id := "nsq", type := some "radio", scorable := some false }] }

/-- First category titled `T`: one yes/no question with id `a`. -/
def exCatA : Category :=
  { id := "ca", title := "T"
    questions := [{ id := "a", type := some "radio"
                    choices := .arr [.str "No", .str "Yes"]
                    choice_scores := .arr [.num 0, .num 1] }] }

/-- Second category also titled `T`: one yes/no question with id `b`. -/
def exCatB : Category :=
  { id := "cb", title := "T"
    questions := [{ id := "b", type := some "radio"
                    choices := .arr [.str "No", .str "Yes"]
                    choice_scores := .arr [.num 0, .num 1] }] }

/-- Answers scoring `exCatA` at 100 and `exCatB` at 0. -/
def exDupAns : List Answer :=
  [ { question_id := "a", value := .str "Yes" },
    { question_id := "b", value := .str "No" } ]

/-- An answer with its stored `score` field removed: the observable part
of an `Answer` as far as `computeScores` is concerned. -/
def eraseScore (a : Answer) : Answer :=
  { question_id := a.question_id, score := none, value := a.value }

/-! ### Shared lemmas -/

theorem clamp01_nonneg (v : ℚ) : 0 ≤ clamp01 v := by
  unfold clamp01
  split
  · exact le_refl 0
  · split
    · exact zero_le_one
    · linarith [not_lt.mp (by assumption : ¬ v < 0)]

theorem clamp01_le_one (v : ℚ) : clamp01 v ≤ 1 := by
  unfold clamp01
  split
  · exact zero_le_one
  · split
    · exact le_refl 1
    · exact le_of_not_lt (by assumption)

theorem find?_append_of_none {α : Type} (p : α → Bool) (l₁ l₂ : List α)
    (h : ∀ x ∈ l₁, p x = false) : (l₁ ++ l₂).find? p = l₂.find? p := by
  induction l₁ with
  | nil => rfl
  | cons a l ih =>
    have ha : p a = false := h a (List.mem_cons_self a l)
    simp only [List.cons_append, List.find?_cons, ha]
    exact ih fun x hx => h x (List.mem_cons_of_mem a hx)

theorem find?_eq_none_of_all {α : Type} (p : α → Bool) (l : List α)
    (h : ∀ x ∈ l, p x = false) : l.find? p = none := by
  induction l with
  | nil => rfl
  | cons a l ih =>
    have ha : p a = false := h a (List.mem_cons_self a l)
    simp only [List.find?_cons, ha]
    exact ih fun x hx => h x (List.mem_cons_of_mem a hx)

theorem findIdx?_eq_some_of_first {α : Type} (p : α → Bool) (l : List α) (i : ℕ) (x : α)
    (hx : l.get? i = some x) (hpx : p x = true)
    (hmin : ∀ j y, j < i → l.get? j = some y → p y = false) :
    l.findIdx? p = some i := by
  induction l generalizing i with
  | nil => simp at hx
  | cons a l ih =>
    cases i with
    | zero =>
      simp only [List.get?_cons_zero, Option.some.injEq] at hx
      subst hx
      simp [List.findIdx?_cons, hpx]
    | succ j =>
      have ha : p a = false := hmin 0 a (Nat.succ_pos j) rfl
      simp only [List.get?_cons_succ] at hx
      have := ih j hx fun k y hk hky => hmin (k + 1) y (Nat.succ_lt_succ hk) hky
      simp [List.findIdx?_cons, ha, this]

theorem findIdx?_eq_none_of_all {α : Type} (p : α → Bool) (l : List α)
    (h : ∀ x ∈ l, p x = false) : l.findIdx? p = none := by
  induction l with
  | nil => rfl
  | cons a l ih =>
    have ha : p a = false := h a (List.mem_cons_self a l)
    have hrest := ih fun x hx => h x (List.mem_cons_of_mem a hx)
    simp [List.findIdx?_cons, ha, hrest]

theorem resolveRawScore_eq_checkbox (q : Question) (a : Answer)
    (htype : asciiLower (q.type.getD "") = "checkbox") :
    resolveRawScore q (some a) =
      checkboxScore (parseArrayish q.choices) (parseNumberArrayish q.choice_scores) a.value := by
  simp [resolveRawScore, htype]

theorem resolveRawScore_eq_rating (q : Question) (a : Answer)
    (htype : asciiLower (q.type.getD "") = "rating") :
    resolveRawScore q (some a) = ratingScore a.value := by
  simp [resolveRawScore, htype]

theorem resolveRawScore_eq_single (q : Question) (a : Answer)
    (ht1 : asciiLower (q.type.getD "") ≠ "checkbox")
    (ht2 : asciiLower (q.type.getD "") ≠ "rating") :
    resolveRawScore q (some a) =
      singleChoiceScore (parseArrayish q.choices) (parseNumberArrayish q.choice_scores)
        (pickedOf a.value) := by
  simp only [resolveRawScore]
  rw [if_neg ht1, if_neg ht2]

theorem questionWeight_pos (opts : ComputeOpts) (q : Question) :
    0 < questionWeight opts q := by
  unfold questionWeight
  cases q.weight with
  | none => exact zero_lt_one
  | some w =>
    dsimp only
    split
    · exact (by assumption : _ ∧ 0 < w).2
    · exact zero_lt_one

theorem questionContribution_included (opts : ComputeOpts) (q : Question) (a : Option Answer)
    (hsc : q.scorable ≠ some false)
    (hcnt : a.isSome = true ∨ truthy opts.treatMissingAsZero = true) :
    questionContribution opts q a =
      some (questionQNorm q a * questionWeight opts q, questionWeight opts q) := by
  simp only [questionContribution]
  rw [if_neg hsc, if_neg]
  rcases hcnt with h | h
  · simp [Option.isNone_iff_eq_none]
    intro hnone
    rw [hnone] at h
    simp at h
  · simp [h]

theorem lookup_map_replace_of_ne {m : List (String × ℚ)} {k : String} {v : ℚ} {t : String}
    (hne : t ≠ k) :
    List.lookup t (m.map fun p => if p.1 = k then (k, v) else p) = List.lookup t m := by
  induction m with
  | nil => rfl
  | cons p m ih =>
    obtain ⟨pk, pv⟩ := p
    simp only [List.map_cons]
    by_cases hp : pk = k
    · subst hp
      have h1 : (t == pk) = false := by simp [hne]
      simp [List.lookup_cons, h1, ih]
    · rw [if_neg (by simpa using hp)]
      simp only [List.lookup_cons]
      cases htp : (t == pk) <;> simp [htp, ih]

theorem lookup_map_replace_self {m : List (String × ℚ)} {k : String} {v : ℚ}
    (hany : m.any (fun p => p.1 = k) = true) :
    List.lookup k (m.map fun p => if p.1 = k then (k, v) else p) = some v := by
  induction m with
  | nil => simp at hany
  | cons p m ih =>
    obtain ⟨pk, pv⟩ := p
    simp only [List.map_cons]
    by_cases hp : pk = k
    · subst hp
      simp [List.lookup_cons]
    · rw [if_neg (by simpa using hp)]
      have h2 : (k == pk) = false := beq_false_of_ne fun h => hp h.symm
      simp only [List.lookup_cons, h2]
      simp only [List.any_cons] at hany
      rcases Bool.or_eq_true_iff.mp hany with h | h
      · exact absurd (of_decide_eq_true h) hp
      · exact ih h

theorem lookup_append_singleton (m : List (String × ℚ)) (k : String) (v : ℚ) (t : String)
    (hall : ∀ p ∈ m, p.1 ≠ k) :
    List.lookup t (m ++ [(k, v)]) = if t = k then some v else List.lookup t m := by
  induction m with
  | nil =>
    by_cases ht : t = k
    · simp [List.lookup_cons, ht]
    · simp [List.lookup_cons, beq_false_of_ne ht, ht]
  | cons p m ih =>
    obtain ⟨pk, pv⟩ := p
    simp only [List.cons_append, List.lookup_cons]
    cases htp : (t == pk) with
    | true =>
      have ht : t = pk := by simpa using htp
      have : ¬ t = k := fun h => hall (pk, pv) (List.mem_cons_self _ m) (by
        simp [← ht, h])
      simp [this]
    | false =>
      rw [ih fun q hq => hall q (List.mem_cons_of_mem _ hq)]

theorem lookup_upsert (m : List (String × ℚ)) (k : String) (v : ℚ) (t : String) :
    List.lookup t (upsert m k v) = if t = k then some v else List.lookup t m := by
  unfold upsert
  by_cases hany : m.any (fun p => p.1 = k) = true
  · rw [if_pos hany]
    by_cases ht : t = k
    · subst ht
      simp [lookup_map_replace_self hany]
    · simp [ht, lookup_map_replace_of_ne ht]
  · rw [if_neg hany]
    exact lookup_append_singleton m k v t fun p hp hk =>
      hany (List.any_eq_true.mpr ⟨p, hp, by simp [hk]⟩)

theorem lookup_computeScores_fold (opts : ComputeOpts) (ansMap : String → Option Answer)
    (cats : List Category) (st : List (String × ℚ) × ℚ × ℚ) (t : String) :
    List.lookup t (cats.foldl (computeStep opts ansMap) st).1 =
      (match (cats.filter fun c => c.title = t).getLast? with
       | some c => some (round2 (categoryPercent opts ansMap c))
       | none => List.lookup t st.1) := by
  induction cats generalizing st with
  | nil => rfl
  | cons c cats ih =>
    rw [List.foldl_cons, ih]
    by_cases hct : c.title = t
    · rw [List.filter_cons_of_pos (by simp [hct])]
      cases hre : (cats.filter fun c => c.title = t) with
      | nil =>
        simp only [hre, List.getLast?_nil, List.getLast?_singleton, computeStep,
          lookup_upsert]
        rw [if_pos hct.symm]
      | cons c' l' =>
        simp only [hre, List.getLast?_cons_cons]
        rcases hgl : (c' :: l').getLast? with _ | x
        · exact absurd (List.getLast?_eq_none_iff.mp hgl) (by simp)
        · rfl
    · rw [List.filter_cons_of_neg (by simp [hct])]
      cases hre : (cats.filter fun c => c.title = t) with
      | nil =>
        simp only [hre, List.getLast?_nil, computeStep, lookup_upsert]
        rw [if_neg fun h => hct h.symm]
      | cons c' l' =>
        rcases hgl : (c' :: l').getLast? with _ | x
        · exact absurd (List.getLast?_eq_none_iff.mp hgl) (by simp)
        · simp only [hre, hgl]

theorem countP_map_replace (m : List (String × ℚ)) (k : String) (v : ℚ) (t : String) :
    (m.map fun p => if p.1 = k then (k, v) else p).countP (fun p => p.1 = t) =
      m.countP (fun p => p.1 = t) := by
  induction m with
  | nil => rfl
  | cons p m ih =>
    obtain ⟨pk, pv⟩ := p
    by_cases hp : pk = k
    · subst hp
      simp [List.countP_cons, ih]
    · have hhead : (if (pk, pv).1 = k then (k, v) else (pk, pv)) = (pk, pv) := by
        simp [hp]
      rw [List.map_cons, hhead, List.countP_cons, List.countP_cons, ih]

theorem countP_upsert_le (m : List (String × ℚ)) (k : String) (v : ℚ) (t : String)
    (h : m.countP (fun p => p.1 = t) ≤ 1) :
    (upsert m k v).countP (fun p => p.1 = t) ≤ 1 := by
  unfold upsert
  by_cases hany : m.any (fun p => p.1 = k) = true
  · rw [if_pos hany, countP_map_replace]
    exact h
  · rw [if_neg hany, List.countP_append]
    by_cases hkt : k = t
    · have hzero : m.countP (fun p => p.1 = t) = 0 := by
        rw [List.countP_eq_zero]
        intro p hp
        simp only [decide_eq_true_eq]
        intro hpt
        exact hany (List.any_eq_true.mpr ⟨p, hp, by simp [hpt, hkt]⟩)
      simp [hzero, hkt]
    · simp [hkt, h]

theorem countP_computeScores_fold (opts : ComputeOpts) (ansMap : String → Option Answer)
    (cats : List Category) (st : List (String × ℚ) × ℚ × ℚ) (t : String)
    (h : st.1.countP (fun p => p.1 = t) ≤ 1) :
    ((cats.foldl (computeStep opts ansMap) st).1).countP (fun p => p.1 = t) ≤ 1 := by
  induction cats generalizing st with
  | nil => exact h
  | cons c cats ih =>
    rw [List.foldl_cons]
    exact ih _ (countP_upsert_le _ _ _ _ h)

theorem questionQNorm_nonneg (q : Question) (a : Option Answer) :
    0 ≤ questionQNorm q a := clamp01_nonneg _

theorem questionQNorm_le_one (q : Question) (a : Option Answer) :
    questionQNorm q a ≤ 1 := clamp01_le_one _

theorem categoryWeightOf_pos (opts : ComputeOpts) (cat : Category) :
    0 < categoryWeightOf opts cat := by
  unfold categoryWeightOf
  cases cat.weight with
  | none => exact zero_lt_one
  | some w =>
    dsimp only
    split
    · exact (by assumption : _ ∧ 0 < w).2
    · exact zero_lt_one

theorem questionContribution_bounds (opts : ComputeOpts) (q : Question) (a : Option Answer)
    (n w : ℚ) (h : questionContribution opts q a = some (n, w)) :
    0 ≤ n ∧ n ≤ w ∧ 0 < w := by
  simp only [questionContribution] at h
  by_cases h1 : q.scorable = some false
  · rw [if_pos h1] at h
    exact absurd h (by simp)
  rw [if_neg h1] at h
  by_cases h2 : (a.isNone = true ∧ ¬ truthy opts.treatMissingAsZero = true)
  · rw [if_pos h2] at h
    exact absurd h (by simp)
  rw [if_neg h2] at h
  simp only [Option.some.injEq, Prod.mk.injEq] at h
  obtain ⟨hn, hw⟩ := h
  subst hn
  subst hw
  have hwpos := questionWeight_pos opts q
  refine ⟨mul_nonneg (questionQNorm_nonneg q a) (le_of_lt hwpos), ?_, hwpos⟩
  calc questionQNorm q a * questionWeight opts q
      ≤ 1 * questionWeight opts q :=
        mul_le_mul_of_nonneg_right (questionQNorm_le_one q a) (le_of_lt hwpos)
    _ = questionWeight opts q := one_mul _

theorem categoryRaw_fold_bounds (opts : ComputeOpts) (ansMap : String → Option Answer)
    (qs : List Question) (st : ℚ × ℚ) (h0 : 0 ≤ st.1) (h1 : st.1 ≤ st.2) :
    0 ≤ (qs.foldl
        (fun acc q =>
          match questionContribution opts q (ansMap q.id) with
          | none => acc
          | some (n, w) => (acc.1 + n, acc.2 + w)) st).1 ∧
    (qs.foldl
        (fun acc q =>
          match questionContribution opts q (ansMap q.id) with
          | none => acc
          | some (n, w) => (acc.1 + n, acc.2 + w)) st).1 ≤
      (qs.foldl
        (fun acc q =>
          match questionContribution opts q (ansMap q.id) with
          | none => acc
          | some (n, w) => (acc.1 + n, acc.2 + w)) st).2 := by
  induction qs generalizing st with
  | nil => exact ⟨h0, h1⟩
  | cons q qs ih =>
    rw [List.foldl_cons]
    rcases hc : questionContribution opts q (ansMap q.id) with _ | ⟨n, w⟩
    · simp only [hc]
      exact ih st h0 h1
    · simp only [hc]
      obtain ⟨hn0, hnw, hw⟩ := questionContribution_bounds opts q _ n w hc
      exact ih (st.1 + n, st.2 + w) (by simp only; linarith) (by simp only; linarith)

theorem categoryPercent_bounds (opts : ComputeOpts) (ansMap : String → Option Answer)
    (cat : Category) :
    0 ≤ categoryPercent opts ansMap cat ∧ categoryPercent opts ansMap cat ≤ 100 := by
  unfold categoryPercent categoryRaw
  obtain ⟨hacc0, haccw⟩ :=
    categoryRaw_fold_bounds opts ansMap cat.questions (0, 0) le_rfl le_rfl
  set r := cat.questions.foldl
      (fun acc q =>
        match questionContribution opts q (ansMap q.id) with
        | none => acc
        | some (n, w) => (acc.1 + n, acc.2 + w)) (0, 0) with hr
  dsimp only
  split
  · rename_i hpos
    constructor
    · positivity
    · rw [div_mul_eq_mul_div, div_le_iff₀ hpos]
      nlinarith
  · norm_num

theorem round2_bounds {x : ℚ} (h0 : 0 ≤ x) (h1 : x ≤ 100) :
    0 ≤ round2 x ∧ round2 x ≤ 100 := by
  unfold round2
  constructor
  · apply div_nonneg _ (by norm_num)
    have : (0 : ℤ) ≤ round (x * 100) := by
      rw [round_eq]
      have : (0 : ℚ) ≤ x * 100 + 1 / 2 := by linarith
      exact Int.floor_nonneg.mpr this
    exact_mod_cast this
  · rw [div_le_iff₀ (by norm_num : (0:ℚ) < 100)]
    have : round (x * 100) ≤ (10000 : ℤ) := by
      rw [round_eq]
      have hle : x * 100 + 1 / 2 ≤ (10000 : ℚ) + 1 / 2 := by linarith
      calc ⌊x * 100 + 1 / 2⌋ ≤ ⌊(10000 : ℚ) + 1 / 2⌋ := Int.floor_le_floor hle
        _ = 10000 := by norm_num
    calc ((round (x * 100) : ℤ) : ℚ) ≤ ((10000 : ℤ) : ℚ) := by exact_mod_cast this
      _ = 100 * 100 := by norm_num

theorem round2_zero : round2 0 = 0 := by
  unfold round2
  norm_num

theorem mem_upsert (m : List (String × ℚ)) (k : String) (v : ℚ) (p : String × ℚ)
    (h : p ∈ upsert m k v) : p ∈ m ∨ p = (k, v) := by
  unfold upsert at h
  split at h
  · obtain ⟨q, hq, hqp⟩ := List.mem_map.mp h
    by_cases hqk : q.1 = k
    · rw [if_pos hqk] at hqp
      exact Or.inr hqp.symm
    · rw [if_neg hqk] at hqp
      exact Or.inl (hqp ▸ hq)
  · rcases List.mem_append.mp h with h | h
    · exact Or.inl h
    · exact Or.inr (by simpa using h)

theorem mem_computeScores_fold (opts : ComputeOpts) (ansMap : String → Option Answer)
    (cats : List Category) (st : List (String × ℚ) × ℚ × ℚ) (p : String × ℚ)
    (h : p ∈ (cats.foldl (computeStep opts ansMap) st).1) :
    p ∈ st.1 ∨ ∃ cat ∈ cats,
      p = (cat.title, round2 (categoryPercent opts ansMap cat)) := by
  induction cats generalizing st with
  | nil => exact Or.inl h
  | cons c cats ih =>
    rw [List.foldl_cons] at h
    rcases ih _ h with hmem | ⟨cat, hcat, hp⟩
    · rcases mem_upsert _ _ _ _ hmem with hmem' | hp
      · exact Or.inl hmem'
      · exact Or.inr ⟨c, List.mem_cons_self c cats, hp⟩
    · exact Or.inr ⟨cat, List.mem_cons_of_mem c hcat, hp⟩

theorem computeScores_fold_sums (opts : ComputeOpts) (ansMap : String → Option Answer)
    (cats : List Category) (st : List (String × ℚ) × ℚ × ℚ) :
    (cats.foldl (computeStep opts ansMap) st).2.1 =
      st.2.1 + (cats.map fun c => categoryPercent opts ansMap c * categoryWeightOf opts c).sum ∧
    (cats.foldl (computeStep opts ansMap) st).2.2 =
      st.2.2 + (cats.map fun c => categoryWeightOf opts c).sum := by
  induction cats generalizing st with
  | nil => simp
  | cons c cats ih =>
    rw [List.foldl_cons]
    obtain ⟨ih1, ih2⟩ := ih (computeStep opts ansMap st c)
    rw [ih1, ih2]
    simp only [computeStep, List.map_cons, List.sum_cons]
    constructor <;> ring

theorem total_sums_bounds (opts : ComputeOpts) (ansMap : String → Option Answer)
    (cats : List Category) :
    0 ≤ (cats.map fun c => categoryPercent opts ansMap c * categoryWeightOf opts c).sum ∧
    (cats.map fun c => categoryPercent opts ansMap c * categoryWeightOf opts c).sum ≤
      100 * (cats.map fun c => categoryWeightOf opts c).sum ∧
    0 ≤ (cats.map fun c => categoryWeightOf opts c).sum := by
  induction cats with
  | nil => norm_num
  | cons c cats ih =>
    obtain ⟨ih1, ih2, ih3⟩ := ih
    have hw := categoryWeightOf_pos opts c
    obtain ⟨hp0, hp100⟩ := categoryPercent_bounds opts ansMap c
    simp only [List.map_cons, List.sum_cons]
    refine ⟨by positivity, ?_, by positivity⟩
    nlinarith

theorem questionContribution_nonscorable (opts : ComputeOpts) (q : Question)
    (a : Option Answer) (h : q.scorable = some false) :
    questionContribution opts q a = none := by
  simp [questionContribution, h]

theorem categoryPercent_nonscorable (opts : ComputeOpts) (ansMap : String → Option Answer)
    (cat : Category) (h : ∀ q ∈ cat.questions, q.scorable = some false) :
    categoryPercent opts ansMap cat = 0 := by
  unfold categoryPercent categoryRaw
  have hfold : ∀ qs : List Question, (∀ q ∈ qs, q.scorable = some false) →
      qs.foldl
        (fun acc q =>
          match questionContribution opts q (ansMap q.id) with
          | none => acc
          | some (n, w) => (acc.1 + n, acc.2 + w)) ((0 : ℚ), (0 : ℚ)) = (0, 0) := by
    intro qs
    induction qs with
    | nil => intro _; rfl
    | cons q qs ih =>
      intro hqs
      rw [List.foldl_cons,
        questionContribution_nonscorable opts q _ (hqs q (List.mem_cons_self q qs))]
      exact ih fun q' hq' => hqs q' (List.mem_cons_of_mem q hq')
  rw [hfold cat.questions h]
  norm_num

/-! ### Claims -/

/-- Claim C5 counterexample: the empty string is an empty input, yet the
Choice-Data Parser returns the singleton `[""]` (and, after number
coercion, `[0]`) for it rather than an empty sequence. -/
theorem parseArrayish_empty_string_cex :
    parseArrayish (.str "") = [""] ∧ parseNumberArrayish (.str "") = [0] :=
  ⟨rfl, rfl⟩

/-- Claim C5 amended: the Choice-Data Parser is total (modelled by total
functions, the lone throwing operation `JSON.parse` being wrapped in a
`try`/`catch` modelled by `Option`); `null`/absent inputs and empty
array, JSON-array and Postgres-array inputs all yield an empty sequence;
the empty *string*, however, is treated as a scalar and yields `[""]`
(labels) and `[0]` (scores). -/
theorem parseArrayish_empty_inputs :
    parseArrayish .undefined = [] ∧ parseArrayish .null = [] ∧
    parseArrayish (.arr []) = [] ∧ parseArrayish (.str "[]") = [] ∧
    parseArrayish (.str "\x7b\x7d") = [] ∧
    parseNumberArrayish .undefined = [] ∧ parseNumberArrayish .null = [] ∧
    parseNumberArrayish (.arr []) = [] ∧ parseNumberArrayish (.str "[]") = [] ∧
    parseNumberArrayish (.str "\x7b\x7d") = [] ∧
    parseArrayish (.str "") = [""] ∧ parseNumberArrayish (.str "") = [0] :=
  ⟨rfl, rfl, rfl, rfl, rfl, rfl, rfl, rfl, rfl, rfl, rfl, rfl⟩

/-- Claim C8: `pickRange` returns the first range in iteration order whose
bounds satisfy `min_score ≤ round(percentage) ≤ max_score`, inclusive at
both endpoints — a percentage exactly equal to an (integer) range bound is
classified into that range — and returns `none` when no range matches or
the range list is empty. -/
theorem pickRange_first_match_inclusive :
    (∀ (percent : ℚ) (rs₁ rs₂ : List ScoreRange) (r : ScoreRange),
      (∀ r' ∈ rs₁,
        ¬ (r'.min_score ≤ ((round percent : ℤ) : ℚ) ∧
           ((round percent : ℤ) : ℚ) ≤ r'.max_score)) →
      r.min_score ≤ ((round percent : ℤ) : ℚ) →
      ((round percent : ℤ) : ℚ) ≤ r.max_score →
      pickRange percent (rs₁ ++ r :: rs₂) = some r) ∧
    (∀ (percent : ℚ) (rs : List ScoreRange),
      (∀ r ∈ rs,
        ¬ (r.min_score ≤ ((round percent : ℤ) : ℚ) ∧
           ((round percent : ℤ) : ℚ) ≤ r.max_score)) →
      pickRange percent rs = none) ∧
    (∀ percent : ℚ, pickRange percent [] = none) ∧
    (∀ (m M : ℤ) (d : String) (c : Option String) (rs : List ScoreRange),
      (m : ℚ) ≤ (M : ℚ) →
      pickRange (m : ℚ) (⟨(m : ℚ), (M : ℚ), d, c⟩ :: rs) = some ⟨(m : ℚ), (M : ℚ), d, c⟩ ∧
      pickRange (M : ℚ) (⟨(m : ℚ), (M : ℚ), d, c⟩ :: rs) = some ⟨(m : ℚ), (M : ℚ), d, c⟩) := by
  refine ⟨?_, ?_, ?_, ?_⟩
  · intro percent rs₁ rs₂ r h₁ hmin hmax
    unfold pickRange
    rw [find?_append_of_none _ _ _ fun x hx => by
      simpa using h₁ x hx]
    rw [List.find?_cons_of_pos]
    simpa using ⟨hmin, hmax⟩
  · intro percent rs h
    unfold pickRange
    exact find?_eq_none_of_all _ _ fun x hx => by simpa using h x hx
  · intro percent
    rfl
  · intro m M d c rs hmM
    constructor
    · unfold pickRange
      rw [List.find?_cons_of_pos]
      simp [round_intCast, hmM]
    · unfold pickRange
      rw [List.find?_cons_of_pos]
      simp [round_intCast, hmM]

/-- Claim C8 witness: a percentage rounding to 50 is classified into the
second range `[50, 100]` once the first range `[0, 49]` fails, and a
percentage equal to a range's lower bound lands in that range. -/
theorem pickRange_witness :
    pickRange (49.6 : ℚ) [⟨0, 49, "low", none⟩, ⟨50, 100, "high", none⟩] =
      some ⟨50, 100, "high", none⟩ ∧
    pickRange ((50 : ℤ) : ℚ) [⟨((50 : ℤ) : ℚ), ((100 : ℤ) : ℚ), "high", none⟩] =
      some ⟨((50 : ℤ) : ℚ), ((100 : ℤ) : ℚ), "high", none⟩ := by
  have hround : (round (49.6 : ℚ) : ℤ) = 50 := by
    rw [round_eq]
    norm_num
  refine ⟨?_, (pickRange_first_match_inclusive.2.2.2 50 100 "high" none [] (by norm_num)).1⟩
  exact pickRange_first_match_inclusive.1 49.6 [⟨0, 49, "low", none⟩] [] ⟨50, 100, "high", none⟩
    (by
      intro r' hr'
      simp only [List.mem_singleton] at hr'
      subst hr'
      rw [hround]
      norm_num)
    (by rw [hround]; norm_num)
    (by rw [hround]; norm_num)

/-- Claim C6: when a question's normalization bounds are degenerate
(`qMax = qMin`), its normalized value is 1 if the raw score strictly
exceeds `qMin` and 0 otherwise; the question is still included (with that
binary value) whenever it is scorable and answered-or-counted, and no
division by zero occurs — the degenerate branch never divides. -/
theorem degenerate_range_policy :
    ∀ (q : Question) (a : Option Answer) (opts : ComputeOpts),
      (questionMinMax q).2 = (questionMinMax q).1 →
      (questionQNorm q a =
        if (questionMinMax q).1 < resolveRawScore q a then 1 else 0) ∧
      (q.scorable ≠ some false →
        (a.isSome = true ∨ truthy opts.treatMissingAsZero = true) →
        questionContribution opts q a =
          some ((if (questionMinMax q).1 < resolveRawScore q a then 1 else 0) *
                  questionWeight opts q,
                questionWeight opts q)) := by
  intro q a opts hdeg
  have hnorm : questionQNorm q a =
      if (questionMinMax q).1 < resolveRawScore q a then 1 else 0 := by
    simp only [questionQNorm]
    rw [if_pos hdeg]
    split
    · simp [clamp01]
    · simp [clamp01]
  refine ⟨hnorm, fun hsc hcnt => ?_⟩
  simp only [questionContribution]
  rw [if_neg hsc, if_neg, hnorm]
  rcases hcnt with h | h
  · simp [Option.isNone_iff_eq_none]
    intro hnone
    rw [hnone] at h
    simp at h
  · simp [h]

/-- Claim C6 witness: `exDegQ` has the degenerate bounds `(2, 2)`; its
answer scoring raw 2 is not strictly above the bound, so it normalizes
to 0. -/
theorem degenerate_range_witness :
    (questionMinMax exDegQ).2 = (questionMinMax exDegQ).1 ∧
    questionQNorm exDegQ (some { question_id := "d", value := .str "X" }) =
      (if (questionMinMax exDegQ).1 <
          resolveRawScore exDegQ (some { question_id := "d", value := .str "X" })
       then 1 else 0) :=
  have hdeg : (questionMinMax exDegQ).2 = (questionMinMax exDegQ).1 := by
    simp [questionMinMax, exDegQ, parseNumberArrayish, parseArrayish, jsToString, renderNum,
      intToDec, natToDec, natDigits, jsNumberOfString, jsTrim, isJsWs, digitsVal]
  ⟨hdeg, (degenerate_range_policy exDegQ (some { question_id := "d", value := .str "X" })
      {} hdeg).1⟩

/-- Claim C1 counterexample: adding an (unanswered, default-scorable)
question of type `text` to a category *does* change that category's
percent and the total percent: the base category scores 100, and with
the text question added it scores 50, because the text question is
scored through the single-choice branch and enters the denominator. -/
theorem type_filter_cex :
    (computeScoresDefault [{ id := "c", title := "T", questions := [exYesNoQ] }]
        exYesAns).totalPercent = 100 ∧
    (computeScoresDefault [{ id := "c", title := "T", questions := [exYesNoQ, exTextQ] }]
        exYesAns).totalPercent = 50 := by
  constructor
  · simp [computeScoresDefault, computeScores, computeStep, categoryPercent, categoryRaw,
      questionContribution, questionQNorm, questionWeight, categoryWeightOf, questionMinMax,
      resolveRawScore, checkboxScore, ratingScore, singleChoiceScore, pickedOf, checkboxLabelScore, lookupAnswer, upsert, round2, clamp01,
      defaultOpts, truthy, exYesNoQ, exTextQ, exYesAns, parseArrayish, parseNumberArrayish,
      jsToString, renderNum, jsNumberOfString, jsNumberOfValue, jsTrim, isJsWs, asciiLower,
      digitsVal, intToDec, natToDec, natDigits, asArrayOfStrings, splitChars]
    norm_num [round_eq]
  · simp [computeScoresDefault, computeScores, computeStep, categoryPercent, categoryRaw,
      questionContribution, questionQNorm, questionWeight, categoryWeightOf, questionMinMax,
      resolveRawScore, checkboxScore, ratingScore, singleChoiceScore, pickedOf, checkboxLabelScore, lookupAnswer, upsert, round2, clamp01,
      defaultOpts, truthy, exYesNoQ, exTextQ, exYesAns, parseArrayish, parseNumberArrayish,
      jsToString, renderNum, jsNumberOfString, jsNumberOfValue, jsTrim, isJsWs, asciiLower,
      digitsVal, intToDec, natToDec, natDigits, asArrayOfStrings, splitChars]
    norm_num [round_eq]

/-- Claim C1 amended: `computeScores` does *not* exclude questions whose
type is outside the three scoring types: every question with
`scorable ≠ false` that is answered (or counted via `treatMissingAsZero`)
contributes to both the numerator and the (positive-weight) denominator
of its category, whatever its type, and a `text` question is scored
exactly like a single-choice (`radio`) one. -/
theorem any_type_scored_and_counted :
    (∀ (opts : ComputeOpts) (q : Question) (a : Option Answer),
      q.scorable ≠ some false →
      (a.isSome = true ∨ truthy opts.treatMissingAsZero = true) →
      questionContribution opts q a =
        some (questionQNorm q a * questionWeight opts q, questionWeight opts q) ∧
      0 < questionWeight opts q) ∧
    (∀ (q : Question) (a : Answer),
      resolveRawScore { q with type := some "text" } (some a) =
      resolveRawScore { q with type := some "radio" } (some a)) := by
  constructor
  · intro opts q a hsc hcnt
    exact ⟨questionContribution_included opts q a hsc hcnt, questionWeight_pos opts q⟩
  · intro q a
    simp [resolveRawScore, asciiLower]

/-- Claim C1 witness: the amended inclusion applied to the concrete `text`
question of the counterexample, unanswered under default options. -/
theorem any_type_scored_witness :
    exTextQ.scorable ≠ some false ∧
    questionContribution defaultOpts exTextQ none =
      some (questionQNorm exTextQ none * questionWeight defaultOpts exTextQ,
            questionWeight defaultOpts exTextQ) := by
  refine ⟨by simp [exTextQ], ?_⟩
  exact (any_type_scored_and_counted.1 defaultOpts exTextQ none (by simp [exTextQ])
    (Or.inr (by simp [defaultOpts, truthy]))).1

/-- Claim C2 counterexample: passing an options object that merely omits
`treatMissingAsZero` (here `{}`) is *not* the same as passing
`treatMissingAsZero = true`: with one scorable question (scores −1..1)
and no answers, `{}` skips the question and yields total 0, while an
explicit `true` counts it as raw 0 and yields total 50. -/
theorem treatMissing_default_cex :
    (computeScores [exMidCat] [] {}).totalPercent = 0 ∧
    (computeScores [exMidCat] [] { treatMissingAsZero := some true }).totalPercent = 50 := by
  constructor
  · simp [computeScores, computeStep, categoryPercent, categoryRaw,
      questionContribution, questionQNorm, questionWeight, categoryWeightOf, questionMinMax,
      resolveRawScore, checkboxScore, ratingScore, singleChoiceScore, pickedOf, checkboxLabelScore, lookupAnswer, upsert, round2, clamp01,
      truthy, exMidCat, exMidQ, parseArrayish, parseNumberArrayish,
      jsToString, renderNum, jsNumberOfString, jsNumberOfValue, jsTrim, isJsWs, asciiLower,
      digitsVal, intToDec, natToDec, natDigits]
  · simp [computeScores, computeStep, categoryPercent, categoryRaw,
      questionContribution, questionQNorm, questionWeight, categoryWeightOf, questionMinMax,
      resolveRawScore, checkboxScore, ratingScore, singleChoiceScore, pickedOf, checkboxLabelScore, lookupAnswer, upsert, round2, clamp01,
      truthy, exMidCat, exMidQ, parseArrayish, parseNumberArrayish,
      jsToString, renderNum, jsNumberOfString, jsNumberOfValue, jsTrim, isJsWs, asciiLower,
      digitsVal, intToDec, natToDec, natDigits]
    norm_num [round_eq]

/-- Claim C2 amended: a scorable question with no matching answer is
excluded from numerator and denominator whenever `treatMissingAsZero` is
falsy (which includes an options object omitting the field), and is
included with raw score 0 whenever it is truthy; the documented default
`treatMissingAsZero = true` applies only when the whole options argument
is omitted (JavaScript default-parameter semantics). -/
theorem missing_answer_policy :
    (∀ (opts : ComputeOpts) (q : Question),
      truthy opts.treatMissingAsZero = false →
      questionContribution opts q none = none) ∧
    (∀ (opts : ComputeOpts) (q : Question),
      truthy opts.treatMissingAsZero = true →
      q.scorable ≠ some false →
      resolveRawScore q none = 0 ∧
      questionContribution opts q none =
        some (questionQNorm q none * questionWeight opts q, questionWeight opts q)) ∧
    (∀ (cats : List Category) (ans : List Answer),
      computeScoresDefault cats ans =
        computeScores cats ans
          { treatMissingAsZero := some true, useQuestionWeights := some false,
            useCategoryWeights := some false }) := by
  refine ⟨?_, ?_, ?_⟩
  · intro opts q h
    simp only [questionContribution]
    split
    · rfl
    · rw [if_pos]
      simp [h]
  · intro opts q h hsc
    exact ⟨rfl, questionContribution_included opts q none hsc (Or.inr h)⟩
  · intro cats ans
    rfl

/-- Claim C2 witness: the two policies applied to the concrete question
`exMidQ`: skipped under `{}`, included with raw 0 under the default
options. -/
theorem missing_answer_policy_witness :
    truthy ({} : ComputeOpts).treatMissingAsZero = false ∧
    questionContribution {} exMidQ none = none ∧
    truthy defaultOpts.treatMissingAsZero = true ∧
    questionContribution defaultOpts exMidQ none =
      some (questionQNorm exMidQ none * questionWeight defaultOpts exMidQ,
            questionWeight defaultOpts exMidQ) :=
  ⟨by simp [truthy],
   missing_answer_policy.1 {} exMidQ (by simp [truthy]),
   by simp [defaultOpts, truthy],
   (missing_answer_policy.2.1 defaultOpts exMidQ (by simp [defaultOpts, truthy])
     (by simp [exMidQ])).2⟩

/-- Claim C3 counterexample: the checkbox lookup is *not* the same lookup
rule as single-choice: with the single label `"A "` (trailing space)
worth 5 and the selected label `"A"`, the checkbox branch finds nothing
(exact `indexOf` only, no whitespace-trimmed retry) and scores 0, while
the very same data under the single-choice branch scores 5 via the
trimmed retry. -/
theorem checkbox_lookup_cex :
    resolveRawScore exCbSpaceQ (some { question_id := "cb2", value := .str "A" }) = 0 ∧
    resolveRawScore { exCbSpaceQ with type := some "radio" }
      (some { question_id := "cb2", value := .str "A" }) = 5 := by
  constructor
  · simp [resolveRawScore, checkboxScore, ratingScore, singleChoiceScore, pickedOf, checkboxLabelScore, exCbSpaceQ,
      parseArrayish, parseNumberArrayish, asArrayOfStrings, splitChars,
      jsToString, renderNum, jsNumberOfString, jsNumberOfValue, jsTrim, isJsWs, asciiLower,
      digitsVal, intToDec, natToDec, natDigits, List.findIdx?]
  · simp [resolveRawScore, checkboxScore, ratingScore, singleChoiceScore, pickedOf, checkboxLabelScore, exCbSpaceQ,
      parseArrayish, parseNumberArrayish, asArrayOfStrings, splitChars,
      jsToString, renderNum, jsNumberOfString, jsNumberOfValue, jsTrim, isJsWs, asciiLower,
      digitsVal, intToDec, natToDec, natDigits, List.findIdx?]

/-- Claim C3 amended: a checkbox raw score is the sum over the selected
labels (string answers are comma-split and trimmed; list answers are
used as-is) of `choiceScores` at the first *exact-match* index of the
label — there is no whitespace-trimmed retry, unlike single-choice; a
selected label with no exact match contributes 0; the `A, C` example
yields 4 and the sum is independent of the order of the selected
labels. -/
theorem checkbox_sum_policy :
    resolveRawScore exCbQ (some { question_id := "cb", value := .str "A, C" }) = 4 ∧
    resolveRawScore exCbQ (some { question_id := "cb", value := .str "C, A" }) = 4 ∧
    (∀ (labels : List String) (scores : List ℚ) (label : String),
      label ∉ labels → checkboxLabelScore labels scores label = 0) ∧
    (∀ (q : Question) (a a' : Answer),
      asciiLower (q.type.getD "") = "checkbox" →
      (asArrayOfStrings a.value).Perm (asArrayOfStrings a'.value) →
      resolveRawScore q (some a) = resolveRawScore q (some a')) := by
  refine ⟨?_, ?_, ?_, ?_⟩
  · simp [resolveRawScore, checkboxScore, ratingScore, singleChoiceScore, pickedOf, checkboxLabelScore, exCbQ,
      parseArrayish, parseNumberArrayish, asArrayOfStrings, splitChars,
      jsToString, renderNum, jsNumberOfString, jsNumberOfValue, jsTrim, isJsWs, asciiLower,
      digitsVal, intToDec, natToDec, natDigits, List.findIdx?]
    norm_num
  · simp [resolveRawScore, checkboxScore, ratingScore, singleChoiceScore, pickedOf, checkboxLabelScore, exCbQ,
      parseArrayish, parseNumberArrayish, asArrayOfStrings, splitChars,
      jsToString, renderNum, jsNumberOfString, jsNumberOfValue, jsTrim, isJsWs, asciiLower,
      digitsVal, intToDec, natToDec, natDigits, List.findIdx?]
    norm_num
  · intro labels scores label hmem
    unfold checkboxLabelScore
    rw [findIdx?_eq_none_of_all]
    intro x hx
    simp only [decide_eq_false_iff_not]
    intro hxl
    exact hmem (hxl ▸ hx)
  · intro q a a' htype hperm
    rw [resolveRawScore_eq_checkbox q a htype, resolveRawScore_eq_checkbox q a' htype]
    simp only [checkboxScore]
    have hlen : (asArrayOfStrings a.value).isEmpty = (asArrayOfStrings a'.value).isEmpty := by
      have h := hperm.length_eq
      cases h1 : asArrayOfStrings a.value <;> cases h2 : asArrayOfStrings a'.value <;>
        simp_all
    rw [hlen]
    by_cases he : ((asArrayOfStrings a'.value).isEmpty = true ∨
        (parseArrayish q.choices).isEmpty = true ∨
        (parseNumberArrayish q.choice_scores).isEmpty = true)
    · rw [if_pos he, if_pos he]
    · rw [if_neg he, if_neg he]
      exact hperm.foldl_eq' (fun x _ y _ z => by
        show z + _ + _ = z + _ + _
        ring) 0

/-- Claim C3 witness: the not-found rule applied concretely — the selected
label `"A"` has no exact match among the labels `["A "]`, so it
contributes 0. -/
theorem checkbox_sum_policy_witness :
    ("A" ∉ ["A "]) ∧ checkboxLabelScore ["A "] [5] "A" = 0 :=
  ⟨by simp, checkbox_sum_policy.2.2.1 ["A "] [5] "A" (by simp)⟩

theorem singleChoiceScore_eq_body (labels : List String) (scores : List ℚ)
    (picked : JSValue) (h1 : picked ≠ .undefined) (h2 : picked ≠ .null) :
    singleChoiceScore labels scores picked =
      (match
          (match labels.findIdx? (· = jsTrim (jsToString picked)) with
           | some i => some i
           | none =>
             labels.findIdx? fun l => jsTrim l = jsTrim (jsToString picked)) with
       | none => 0
       | some i => scores.getD i 0) := by
  cases picked <;> simp_all [singleChoiceScore]

/-- Claim C4 counterexample: with labels `["A", " A "]`, scores `[1, 2]`
and answer value `" A "`, the first index at which the labels exactly
equal the answer value is 1 (score 2) — but the code trims the picked
value *before* the "exact" lookup and resolves index 0, score 1. -/
theorem single_choice_exact_cex :
    parseArrayish exDupQ.choices = ["A", " A "] ∧
    (parseArrayish exDupQ.choices).findIdx? (· = " A ") = some 1 ∧
    parseNumberArrayish exDupQ.choice_scores = [1, 2] ∧
    resolveRawScore exDupQ (some { question_id := "c4", value := .str " A " }) = 1 := by
  refine ⟨?_, ?_, ?_, ?_⟩
  · simp [exDupQ, parseArrayish, jsToString]
  · simp [exDupQ, parseArrayish, jsToString, List.findIdx?]
  · simp [exDupQ, parseArrayish, parseNumberArrayish, jsToString, renderNum, intToDec,
      natToDec, natDigits, jsNumberOfString, jsTrim, isJsWs, digitsVal]
  · simp [exDupQ, resolveRawScore, checkboxScore, ratingScore, singleChoiceScore, pickedOf,
      checkboxLabelScore, parseArrayish, parseNumberArrayish, jsToString, renderNum, intToDec,
      natToDec, natDigits, jsNumberOfString, jsTrim, isJsWs, asciiLower, digitsVal,
      List.findIdx?]

/-- Claim C4 amended: the picked answer value is stringified and
whitespace-trimmed first; the resolved index is the first index at which
`choiceLabels` exactly equals that *trimmed* value (first match wins on
duplicates); only when that fails is a comparison of trimmed labels
against the trimmed value retried; if neither matches the raw score is
0, and an index past the end of `choiceScores` also scores 0 (`getD`);
every non-checkbox, non-rating type resolves through this branch. -/
theorem single_choice_lookup :
    (∀ (labels : List String) (scores : List ℚ) (picked : JSValue),
      picked ≠ .undefined → picked ≠ .null →
      (∀ i : ℕ,
        labels.get? i = some (jsTrim (jsToString picked)) →
        (∀ j y, j < i → labels.get? j = some y → y ≠ jsTrim (jsToString picked)) →
        singleChoiceScore labels scores picked = scores.getD i 0) ∧
      ((∀ l ∈ labels, l ≠ jsTrim (jsToString picked)) →
        ∀ i y, labels.get? i = some y → jsTrim y = jsTrim (jsToString picked) →
        (∀ j z, j < i → labels.get? j = some z → jsTrim z ≠ jsTrim (jsToString picked)) →
        singleChoiceScore labels scores picked = scores.getD i 0) ∧
      ((∀ l ∈ labels, l ≠ jsTrim (jsToString picked) ∧
          jsTrim l ≠ jsTrim (jsToString picked)) →
        singleChoiceScore labels scores picked = 0)) ∧
    (∀ (q : Question) (a : Answer),
      asciiLower (q.type.getD "") ≠ "checkbox" →
      asciiLower (q.type.getD "") ≠ "rating" →
      resolveRawScore q (some a) =
        singleChoiceScore (parseArrayish q.choices) (parseNumberArrayish q.choice_scores)
          (pickedOf a.value)) := by
  refine ⟨?_, resolveRawScore_eq_single⟩
  intro labels scores picked h1 h2
  rw [singleChoiceScore_eq_body labels scores picked h1 h2]
  refine ⟨?_, ?_, ?_⟩
  · intro i hx hmin
    rw [findIdx?_eq_some_of_first _ labels i (jsTrim (jsToString picked)) hx (by simp)
      (fun j y hj hjy => by
        simp only [decide_eq_false_iff_not]
        exact hmin j y hj hjy)]
  · intro hnone i y hy htrim hmin
    rw [findIdx?_eq_none_of_all _ labels (fun x hx => by
      simp only [decide_eq_false_iff_not]
      exact hnone x hx)]
    rw [findIdx?_eq_some_of_first _ labels i y hy (by simp [htrim])
      (fun j z hj hjz => by
        simp only [decide_eq_false_iff_not]
        exact hmin j z hj hjz)]
  · intro hboth
    rw [findIdx?_eq_none_of_all _ labels (fun x hx => by
      simp only [decide_eq_false_iff_not]
      exact (hboth x hx).1)]
    rw [findIdx?_eq_none_of_all _ labels (fun x hx => by
      simp only [decide_eq_false_iff_not]
      exact (hboth x hx).2)]

/-- Claim C4 witness: the first-exact-match rule applied to the
counterexample data — the trimmed picked value `"A"` matches label 0
exactly, so the score is `scores[0] = 1`. -/
theorem single_choice_lookup_witness :
    (["A", " A "].get? 0 = some (jsTrim (jsToString (.str " A ")))) ∧
    singleChoiceScore ["A", " A "] [1, 2] (.str " A ") = [(1 : ℚ), 2].getD 0 0 :=
  have ht : ["A", " A "].get? 0 = some (jsTrim (jsToString (.str " A "))) := by
    simp [jsToString, jsTrim, isJsWs]
  ⟨ht,
   ((single_choice_lookup.1 ["A", " A "] [1, 2] (.str " A ") (by simp) (by simp)).1 0 ht
     (fun j y hj _ => absurd hj (by omega)))⟩

/-- Claim C9: category titles are the aggregation key of the output map:
looking up a title returns exactly the (rounded) percent of the *last*
input category bearing that title, the map never holds more than one
entry per title, and — as the concrete two-category demonstration shows —
both same-titled categories still contribute their percent and weight to
`totalPercent` (here categories scoring 100 and 0 collapse to the single
entry `("T", 0)` while the total is their average 50). -/
theorem duplicate_title_collapse :
    (∀ (cats : List Category) (ans : List Answer) (opts : ComputeOpts) (t : String),
      List.lookup t (computeScores cats ans opts).categoryPercents =
        (match (cats.filter fun c => c.title = t).getLast? with
         | some c => some (round2 (categoryPercent opts (lookupAnswer ans) c))
         | none => none) ∧
      (computeScores cats ans opts).categoryPercents.countP (fun p => p.1 = t) ≤ 1) ∧
    (computeScoresDefault [exCatA, exCatB] exDupAns).categoryPercents = [("T", 0)] ∧
    (computeScoresDefault [exCatA, exCatB] exDupAns).totalPercent = 50 := by
  refine ⟨fun cats ans opts t => ⟨?_, ?_⟩, ?_, ?_⟩
  · show List.lookup t (cats.foldl (computeStep opts (lookupAnswer ans)) ([], 0, 0)).1 = _
    rw [lookup_computeScores_fold]
    rcases (cats.filter fun c => c.title = t).getLast? with _ | c <;> rfl
  · exact countP_computeScores_fold opts (lookupAnswer ans) cats ([], 0, 0) t (by simp)
  · simp [computeScoresDefault, computeScores, computeStep, categoryPercent, categoryRaw,
      questionContribution, questionQNorm, questionWeight, categoryWeightOf, questionMinMax,
      resolveRawScore, checkboxScore, ratingScore, singleChoiceScore, pickedOf,
      checkboxLabelScore, lookupAnswer, upsert, round2, clamp01, defaultOpts, truthy,
      exCatA, exCatB, exDupAns, parseArrayish, parseNumberArrayish,
      jsToString, renderNum, jsNumberOfString, jsNumberOfValue, jsTrim, isJsWs, asciiLower,
      digitsVal, intToDec, natToDec, natDigits]
    norm_num [round_eq]
  · simp [computeScoresDefault, computeScores, computeStep, categoryPercent, categoryRaw,
      questionContribution, questionQNorm, questionWeight, categoryWeightOf, questionMinMax,
      resolveRawScore, checkboxScore, ratingScore, singleChoiceScore, pickedOf,
      checkboxLabelScore, lookupAnswer, upsert, round2, clamp01, defaultOpts, truthy,
      exCatA, exCatB, exDupAns, parseArrayish, parseNumberArrayish,
      jsToString, renderNum, jsNumberOfString, jsNumberOfValue, jsTrim, isJsWs, asciiLower,
      digitsVal, intToDec, natToDec, natDigits]
    norm_num [round_eq]

theorem foldl_congr_fn {α β : Type} (f g : β → α → β) (l : List α) (b : β)
    (h : ∀ b' a, f b' a = g b' a) : l.foldl f b = l.foldl g b := by
  induction l generalizing b with
  | nil => rfl
  | cons a l ih => rw [List.foldl_cons, List.foldl_cons, h, ih]

theorem lookupAnswer_erase (ans : List Answer) (qid : String) :
    lookupAnswer (ans.map eraseScore) qid = (lookupAnswer ans qid).map eraseScore := by
  unfold lookupAnswer
  suffices h : ∀ init : Option Answer,
      (ans.map eraseScore).foldl
        (fun acc a => if a.question_id = qid then some a else acc) (init.map eraseScore) =
      (ans.foldl (fun acc a => if a.question_id = qid then some a else acc) init).map
        eraseScore by
    simpa using h none
  induction ans with
  | nil => intro init; rfl
  | cons a l ih =>
    intro init
    rw [List.map_cons, List.foldl_cons, List.foldl_cons]
    by_cases hq : a.question_id = qid
    · rw [if_pos (by simpa [eraseScore] using hq), if_pos hq]
      exact (Option.map_some' .. ▸ ih (some a) : _)
    · rw [if_neg (by simpa [eraseScore] using hq), if_neg hq]
      exact ih init

theorem resolveRawScore_erase (q : Question) (a : Answer) :
    resolveRawScore q (some (eraseScore a)) = resolveRawScore q (some a) := rfl

theorem questionContribution_erase (opts : ComputeOpts) (q : Question) (a : Option Answer) :
    questionContribution opts q (a.map eraseScore) = questionContribution opts q a := by
  cases a with
  | none => rfl
  | some a =>
    simp only [Option.map_some']
    simp only [questionContribution, questionQNorm, resolveRawScore_erase, Option.isNone_some]

theorem computeScores_erase (cats : List Category) (ans : List Answer) (opts : ComputeOpts) :
    computeScores cats (ans.map eraseScore) opts = computeScores cats ans opts := by
  unfold computeScores
  dsimp only
  have hstep : ∀ st cat,
      computeStep opts (lookupAnswer (ans.map eraseScore)) st cat =
      computeStep opts (lookupAnswer ans) st cat := by
    intro st cat
    have hcat : categoryPercent opts (lookupAnswer (ans.map eraseScore)) cat =
        categoryPercent opts (lookupAnswer ans) cat := by
      unfold categoryPercent categoryRaw
      rw [foldl_congr_fn _ _ _ _ fun acc q => by
        rw [lookupAnswer_erase, questionContribution_erase]]
    simp only [computeStep, hcat]
  rw [foldl_congr_fn _ _ _ _ hstep]

/-- Claim C10: `computeScores` ignores the stored per-answer `score`
field: two answer lists that agree on `question_id` and `value`
everywhere (i.e. become equal once the `score` fields are erased)
produce identical results — the outcome depends only on each answer's
`value`. -/
theorem score_field_ignored :
    ∀ (cats : List Category) (opts : ComputeOpts) (ans₁ ans₂ : List Answer),
      ans₁.map eraseScore = ans₂.map eraseScore →
      computeScores cats ans₁ opts = computeScores cats ans₂ opts := by
  intro cats opts ans₁ ans₂ h
  calc computeScores cats ans₁ opts
      = computeScores cats (ans₁.map eraseScore) opts := (computeScores_erase ..).symm
    _ = computeScores cats (ans₂.map eraseScore) opts := by rw [h]
    _ = computeScores cats ans₂ opts := computeScores_erase ..

/-- Claim C10 witness: changing a stored score from 5 to 99 (same
`question_id` and `value`) leaves the result unchanged. -/
theorem score_field_ignored_witness :
    ([{ question_id := "qb", score := some 5, value := .str "Yes" }].map eraseScore =
      [{ question_id := "qb", score := some 99, value := .str "Yes" }].map eraseScore) ∧
    computeScores [{ id := "c", title := "T", questions := [exYesNoQ] }]
        [{ question_id := "qb", score := some 5, value := .str "Yes" }] defaultOpts =
      computeScores [{ id := "c", title := "T", questions := [exYesNoQ] }]
        [{ question_id := "qb", score := some 99, value := .str "Yes" }] defaultOpts :=
  ⟨rfl,
   score_field_ignored [{ id := "c", title := "T", questions := [exYesNoQ] }] defaultOpts
     [{ question_id := "qb", score := some 5, value := .str "Yes" }]
     [{ question_id := "qb", score := some 99, value := .str "Yes" }] rfl⟩

/-- Claim C7: every per-question normalized value lies in `[0, 1]`; every
entry of `categoryPercents` lies in `[0, 100]` and equals the exact
(unrounded) weighted category average rounded to 2 decimal places;
`totalPercent` lies in `[0, 100]` and equals the exact weighted average
of the unrounded category percents rounded to 2 decimal places; and when
no category contains a scorable question (in the spec's data model a
question's weight is positive or defaulted to 1, so this is exactly "no
scorable question with positive weight"), or there are no categories at
all, `totalPercent` is 0. -/
theorem normalized_and_percent_bounds :
    (∀ (q : Question) (a : Option Answer),
      0 ≤ questionQNorm q a ∧ questionQNorm q a ≤ 1) ∧
    (∀ (cats : List Category) (ans : List Answer) (opts : ComputeOpts),
      (∀ p ∈ (computeScores cats ans opts).categoryPercents,
        0 ≤ p.2 ∧ p.2 ≤ 100 ∧
        ∃ cat ∈ cats, cat.title = p.1 ∧
          p.2 = round2 (categoryPercent opts (lookupAnswer ans) cat)) ∧
      0 ≤ (computeScores cats ans opts).totalPercent ∧
      (computeScores cats ans opts).totalPercent ≤ 100 ∧
      (computeScores cats ans opts).totalPercent =
        (if 0 < (cats.map fun c => categoryWeightOf opts c).sum then
          round2 ((cats.map fun c =>
            categoryPercent opts (lookupAnswer ans) c * categoryWeightOf opts c).sum /
            (cats.map fun c => categoryWeightOf opts c).sum)
         else 0)) ∧
    (∀ (cats : List Category) (ans : List Answer) (opts : ComputeOpts),
      (∀ cat ∈ cats, ∀ q ∈ cat.questions, q.scorable = some false) →
      (computeScores cats ans opts).totalPercent = 0) := by
  have key : ∀ (cats : List Category) (ans : List Answer) (opts : ComputeOpts),
      (computeScores cats ans opts).totalPercent =
        (if 0 < (cats.map fun c => categoryWeightOf opts c).sum then
          round2 ((cats.map fun c =>
            categoryPercent opts (lookupAnswer ans) c * categoryWeightOf opts c).sum /
            (cats.map fun c => categoryWeightOf opts c).sum)
         else 0) := by
    intro cats ans opts
    show (if 0 < (cats.foldl (computeStep opts (lookupAnswer ans)) ([], 0, 0)).2.2 then
        round2 ((cats.foldl (computeStep opts (lookupAnswer ans)) ([], 0, 0)).2.1 /
          (cats.foldl (computeStep opts (lookupAnswer ans)) ([], 0, 0)).2.2)
      else 0) = _
    obtain ⟨h1, h2⟩ := computeScores_fold_sums opts (lookupAnswer ans) cats ([], 0, 0)
    rw [h1, h2]
    norm_num
  refine ⟨fun q a => ⟨questionQNorm_nonneg q a, questionQNorm_le_one q a⟩,
    fun cats ans opts => ⟨?_, ?_, ?_, key cats ans opts⟩, ?_⟩
  · intro p hp
    have hp' : p ∈ (cats.foldl (computeStep opts (lookupAnswer ans)) ([], 0, 0)).1 := hp
    rcases mem_computeScores_fold opts (lookupAnswer ans) cats ([], 0, 0) p hp' with
      hmem | ⟨cat, hcat, hpe⟩
    · exact absurd hmem (List.not_mem_nil p)
    · obtain ⟨hc0, hc100⟩ := categoryPercent_bounds opts (lookupAnswer ans) cat
      obtain ⟨hr0, hr100⟩ := round2_bounds hc0 hc100
      rw [hpe]
      exact ⟨hr0, hr100, cat, hcat, rfl, rfl⟩
  · rw [key cats ans opts]
    obtain ⟨hs0, hsW, hW0⟩ := total_sums_bounds opts (lookupAnswer ans) cats
    split
    · rename_i hpos
      exact (round2_bounds (by positivity)
        (by rw [div_le_iff₀ hpos]; linarith)).1
    · exact le_refl 0
  · rw [key cats ans opts]
    obtain ⟨hs0, hsW, hW0⟩ := total_sums_bounds opts (lookupAnswer ans) cats
    split
    · rename_i hpos
      exact (round2_bounds (by positivity)
        (by rw [div_le_iff₀ hpos]; linarith)).2
    · norm_num
  · intro cats ans opts h
    rw [key cats ans opts]
    have hzero : (cats.map fun c =>
        categoryPercent opts (lookupAnswer ans) c * categoryWeightOf opts c).sum = 0 := by
      apply List.sum_eq_zero
      intro x hx
      obtain ⟨cat, hcat, hxe⟩ := List.mem_map.mp hx
      rw [← hxe, categoryPercent_nonscorable opts (lookupAnswer ans) cat (h cat hcat),
        zero_mul]
    rw [hzero]
    split
    · rw [zero_div, round2_zero]
    · rfl

/-- Claim C7 witness: the zero-total case applied concretely — a single
category whose only question is non-scorable yields `totalPercent = 0`
(and the hypothesis is discharged by evaluation). -/
theorem normalized_and_percent_bounds_witness :
    (∀ cat ∈ [exNonScorableCat], ∀ q ∈ cat.questions, q.scorable = some false) ∧
    (computeScores [exNonScorableCat] [] {}).totalPercent = 0 :=
  ⟨by simp [exNonScorableCat],
   normalized_and_percent_bounds.2.2 [exNonScorableCat] [] {}
     (by simp [exNonScorableCat])⟩

end Scoring
